import Mathlib

/-!
Verification of the ClockifyApp reporting pipeline.

The Python sources (`main.py`, `streamlit_app.py`) are shallowly embedded
below: pure data-shaping functions become Lean functions, pandas tables
become lists of records, machine floats used for hour durations become `ℚ`,
fallible code returns `Except`/`Option`, and the in-place mutation of the
`params` dictionary performed by `fetch_all` becomes explicit state passing.
-/

namespace Clockify

/-! ## Basic string/number helpers (formatting as in Python) -/

/-- Digits of a decimal string, folded to a number (`int(...)` on a digit run). -/
def digitsToNat (l : List Char) : Nat :=
  l.foldl (fun acc c => acc * 10 + (c.toNat - 48)) 0

/-- Zero-padded two-digit rendering (`%02d` / `strftime` fields). -/
def pad2 (n : Nat) : String :=
  if n < 10 then "0" ++ toString n else toString n

/-- Zero-padded four-digit rendering (year field of `datetime.isoformat`). -/
def pad4 (n : Nat) : String :=
  if n < 10 then "000" ++ toString n
  else if n < 100 then "00" ++ toString n
  else if n < 1000 then "0" ++ toString n
  else toString n

/-! ## Calendar arithmetic (Python `datetime` validation) -/

/-- Gregorian leap-year test, as `calendar.isleap` / `datetime`. -/
def isLeapYear (y : Nat) : Bool :=
  (y % 4 = 0 && y % 100 ≠ 0) || y % 400 = 0

/-- Days in a month, 0 for an invalid month number. -/
def daysInMonth (y m : Nat) : Nat :=
  if m = 1 || m = 3 || m = 5 || m = 7 || m = 8 || m = 10 || m = 12 then 31
  else if m = 4 || m = 6 || m = 9 || m = 11 then 30
  else if m = 2 then (if isLeapYear y then 29 else 28)
  else 0

/-- The argument check of the `datetime(year, month, day, ...)` constructor:
`MINYEAR ≤ year ≤ MAXYEAR`, `1 ≤ month ≤ 12`, `1 ≤ day ≤ days_in_month`. -/
def validDate (y m d : Nat) : Bool :=
  1 ≤ y && y ≤ 9999 && 1 ≤ m && m ≤ 12 && 1 ≤ d && d ≤ daysInMonth y m

/-! ## Date Normalizer: `main.to_iso_format` -/

/-- Python `str.strip()`: drop leading and trailing whitespace. (Defined over
the character list so that proofs can evaluate it.) -/
def trimB (s : String) : String :=
  ⟨((s.data.dropWhile Char.isWhitespace).reverse.dropWhile Char.isWhitespace).reverse⟩

def isDigitB (c : Char) : Bool := c.isDigit

/-- The separator class (dot, dash or slash) of the regex in `to_iso_format`. -/
def isSepB (c : Char) : Bool := c = '.' || c = '-' || c = '/'

/-- The regex `^(\d{1,2}) SEP (\d{1,2})(?: SEP (\d{4}))?$` of `to_iso_format`,
where SEP is the class of dot, dash and slash: day and month as 1-2 digit
runs, optional 4-digit year.
Returns `(day, month, optional year)` exactly when the regex matches. -/
def parseDMY (s : String) : Option (Nat × Nat × Option Nat) :=
  let cs := s.data
  let p1 := cs.span isDigitB
  if p1.1.length = 0 || 2 < p1.1.length then none
  else
    match p1.2 with
    | [] => none
    | c1 :: r2 =>
      if !isSepB c1 then none
      else
        let p2 := r2.span isDigitB
        if p2.1.length = 0 || 2 < p2.1.length then none
        else
          match p2.2 with
          | [] => some (digitsToNat p1.1, digitsToNat p2.1, none)
          | c2 :: r4 =>
            if !isSepB c2 then none
            else
              let p3 := r4.span isDigitB
              if p3.1.length = 4 && p3.2.isEmpty then
                some (digitsToNat p1.1, digitsToNat p2.1, some (digitsToNat p3.1))
              else none

/-- The fallback `datetime.strptime(date_str, "%Y-%m-%d")` of `to_iso_format`:
`%Y` is exactly four digits, `%m` and `%d` are one or two digits, separators
are literal `-`, and `strptime` validates the resulting calendar date
(raising `ValueError`, caught by the caller, otherwise). -/
def parseStrictYMD (s : String) : Option (Nat × Nat × Nat) :=
  let cs := s.data
  let p1 := cs.span isDigitB
  if p1.1.length ≠ 4 then none
  else
    match p1.2 with
    | '-' :: r2 =>
      let p2 := r2.span isDigitB
      if p2.1.length = 0 || 2 < p2.1.length then none
      else
        match p2.2 with
        | '-' :: r4 =>
          let p3 := r4.span isDigitB
          if p3.1.length = 0 || 2 < p3.1.length || !p3.2.isEmpty then none
          else
            let y := digitsToNat p1.1
            let m := digitsToNat p2.1
            let d := digitsToNat p3.1
            if validDate y m d then some (y, m, d) else none
        | _ => none
    | _ => none

/-- Date part of `datetime.isoformat`: `YYYY-MM-DD`. -/
def isoDatePart (y m d : Nat) : String :=
  pad4 y ++ "-" ++ pad2 m ++ "-" ++ pad2 d

/-- Time part of `datetime.isoformat(timespec="seconds")`, with the trailing
`"Z"` appended by `to_iso_format`: `THH:MM:SSZ`. -/
def isoTimePart (hh mi ss : Nat) : String :=
  "T" ++ pad2 hh ++ ":" ++ pad2 mi ++ ":" ++ pad2 ss ++ "Z"

/-- Parsing/validation stage of `main.to_iso_format(date_str)`: the stripped
string goes through the flexible regex (day, month, optional 4-digit year,
missing year defaulting to `datetime.now().year`, here `todayYear`) and is
handed to the `datetime` constructor, whose `ValueError` for an invalid
calendar date propagates; when the regex does not match, the strict
`YYYY-MM-DD` fallback is tried and its failure raises
`ValueError("Unsupported date format: ...")`. -/
def parsedDate (dateStr : String) (todayYear : Nat) :
    Except String (Nat × Nat × Nat) :=
  let s := trimB dateStr
  match parseDMY s with
  | some (day, mon, yOpt) =>
    let year := yOpt.getD todayYear
    if validDate year mon day then .ok (year, mon, day)
    else .error "ValueError: invalid date passed to datetime()"
  | none =>
    match parseStrictYMD s with
    | some (y, m, d) => .ok (y, m, d)
    | none => .error ("Unsupported date format: '" ++ s ++ "'")

/-- `main.to_iso_format(date_str, is_end)`: build the datetime at the day
boundary selected by `is_end` and render it as `datetime.isoformat` plus a
trailing `"Z"`. -/
def toIsoFormat (dateStr : String) (isEnd : Bool) (todayYear : Nat) :
    Except String String :=
  match parsedDate dateStr todayYear, isEnd with
  | .ok (y, m, d), true => .ok (isoDatePart y m d ++ isoTimePart 23 59 59)
  | .ok (y, m, d), false => .ok (isoDatePart y m d ++ isoTimePart 0 0 0)
  | .error e, _ => .error e

/-- A date string is accepted by `to_iso_format` (no `ValueError`): either the
flexible day-month(-year) regex matches and the resulting triple is a valid
calendar date, or the strict `YYYY-MM-DD` fallback parses it. -/
def acceptedDate (dateStr : String) (todayYear : Nat) : Bool :=
  match parseDMY (trimB dateStr) with
  | some (day, mon, yOpt) => validDate (yOpt.getD todayYear) mon day
  | none => (parseStrictYMD (trimB dateStr)).isSome

/-- `true` exactly when the computation raised (`ValueError`). -/
def isError (x : Except String String) : Bool :=
  match x with
  | .error _ => true
  | .ok _ => false

/-! Lexicographic-order helper for timestamp strings. -/

theorem string_lt_append (p q r : String) (h : q < r) : p ++ q < p ++ r := by
  rw [String.lt_iff_toList_lt] at h ⊢
  have := List.Lex.append_left (· < ·) h p.toList
  simpa [String.toList] using this

/-- C5: For every date string accepted by the Date Normalizer (any year
default), the start-boundary output (`is_end=False`) and the end-boundary
output (`is_end=True`) share the same date part, carry times `00:00:00` and
`23:59:59` respectively, and the former is strictly less than the latter. -/
theorem claim_C5 (s : String) (y : Nat) (t1 t2 : String)
    (h1 : toIsoFormat s false y = .ok t1) (h2 : toIsoFormat s true y = .ok t2) :
    (∃ p, t1 = p ++ "T00:00:00Z" ∧ t2 = p ++ "T23:59:59Z") ∧ t1 < t2 := by
  have e0 : isoTimePart 0 0 0 = "T00:00:00Z" := by decide
  have e1 : isoTimePart 23 59 59 = "T23:59:59Z" := by decide
  have hlt : ("T00:00:00Z" : String) < "T23:59:59Z" := by
    rw [String.lt_iff_toList_lt]; decide
  cases hc : parsedDate s y with
  | error e => simp [toIsoFormat, hc] at h1
  | ok v =>
    obtain ⟨yy, mm, dd⟩ := v
    simp only [toIsoFormat, hc, Except.ok.injEq] at h1 h2
    subst h1; subst h2
    rw [e0, e1]
    exact ⟨⟨isoDatePart yy mm dd, rfl, rfl⟩, string_lt_append _ _ _ hlt⟩

/-- C5 witness: the theorem applied to the concrete accepted input `"05-06"`
with current year 2025. -/
theorem claim_C5_witness :
    toIsoFormat "05-06" false 2025 = .ok "2025-06-05T00:00:00Z" ∧
    toIsoFormat "05-06" true 2025 = .ok "2025-06-05T23:59:59Z" ∧
    ((∃ p, "2025-06-05T00:00:00Z" = p ++ "T00:00:00Z" ∧
           "2025-06-05T23:59:59Z" = p ++ "T23:59:59Z") ∧
     ("2025-06-05T00:00:00Z" : String) < "2025-06-05T23:59:59Z") :=
  ⟨rfl, rfl,
   claim_C5 "05-06" 2025 "2025-06-05T00:00:00Z" "2025-06-05T23:59:59Z" rfl rfl⟩

/-- C6: Every input string matching none of the accepted date patterns makes
`to_iso_format` raise `ValueError` and return no timestamp; in particular
`"13/13/2025"` (month 13 rejected by the `datetime` constructor) and
`"32-01"` (day 32 rejected by the `datetime` constructor) each produce an
error rather than an output. -/
theorem claim_C6 :
    (∀ (s : String) (b : Bool) (y : Nat), acceptedDate s y = false →
       isError (toIsoFormat s b y) = true)
    ∧ isError (toIsoFormat "13/13/2025" false 2025) = true
    ∧ isError (toIsoFormat "32-01" true 2025) = true := by
  refine ⟨?_, by decide, by decide⟩
  intro s b y h
  have hpd : ∃ e, parsedDate s y = .error e := by
    simp only [acceptedDate] at h
    simp only [parsedDate]
    rcases hp : parseDMY (trimB s) with _ | ⟨d, mo, yo⟩
    · rcases hq : parseStrictYMD (trimB s) with _ | v
      · exact ⟨_, rfl⟩
      · rw [hp, hq] at h; simp at h
    · rw [hp] at h
      simp at h
      simp [h]
  obtain ⟨e, he⟩ := hpd
  cases b <;> simp [toIsoFormat, he, isError]

/-- C6 witness: the theorem\'s universal part applied at the concrete
non-matching input `"not a date"`. -/
theorem claim_C6_witness :
    acceptedDate "not a date" 2025 = false ∧
    isError (toIsoFormat "not a date" false 2025) = true :=
  ⟨by decide, claim_C6.1 "not a date" false 2025 (by decide)⟩

/-! ## Paginated Fetcher: `main.fetch_all`

`fetch_all(endpoint, base_url, headers, params=None)` loops over page
numbers starting at 1; each iteration evaluates `query = params or {}`
(which aliases the caller-owned non-empty dict, or makes a fresh empty one),
executes `query.update({"page": page})`, performs the request, stops on the
first empty page, and aborts on an HTTP error (`raise_for_status`). The
remote service is abstracted as a function from page number to either the
served item list or a transport error; the dictionary mutation is made
explicit by threading the dict through the loop and returning its final
state next to the result. -/

/-- A value stored in the `params` dict (the fetch filters are strings, the
`page` counter is an integer). -/
inductive PVal where
  | str (s : String)
  | num (n : Nat)
deriving DecidableEq

/-- A Python dict, as an insertion-ordered association list. -/
abbrev Dict := List (String × PVal)

/-- `d[k] = v`: replace in place if the key exists, else append. -/
def dictSet (d : Dict) (k : String) (v : PVal) : Dict :=
  if d.any (fun kv => kv.1 == k) then
    d.map (fun kv => if kv.1 == k then (k, v) else kv)
  else d ++ [(k, v)]

/-- `d.get(k)`. -/
def dictGet (d : Dict) (k : String) : Option PVal :=
  (d.find? (fun kv => kv.1 == k)).map (fun kv => kv.2)

/-- The `while True` loop of `fetch_all`, from page number `page`. When
`shared` is true, `query = params or {}` aliases the caller's dict, so the
`query.update({"page": page})` of every iteration mutates it; otherwise each
iteration works on a fresh empty dict, which is dropped here since the page
number alone determines the abstracted response. `fuel` bounds the number of
iterations, standing for the (possible) divergence of the Python loop; all
theorems assume enough fuel to reach the first empty page. -/
def fetchPages {α : Type} (pages : Nat → Except Unit (List α)) (fuel page : Nat)
    (query : Dict) (shared : Bool) : Except Unit (List α) × Dict :=
  match fuel with
  | 0 => (.error (), query)
  | fuel + 1 =>
    let q := if shared then dictSet query "page" (.num page) else query
    match pages page with
    | .error e => (.error e, q)
    | .ok items =>
      if items.isEmpty then (.ok [], q)
      else
        match fetchPages pages fuel (page + 1) q shared with
        | (.ok rest, dict) => (.ok (items ++ rest), dict)
        | (.error e, dict) => (.error e, dict)

/-- `main.fetch_all`: the second component is the caller's `params` argument
as observable after the call — `params or {}` aliases it exactly when it is
neither `None` nor empty. -/
def fetchAll {α : Type} (pages : Nat → Except Unit (List α)) (fuel : Nat)
    (params : Option Dict) : Except Unit (List α) × Option Dict :=
  match params with
  | none => ((fetchPages pages fuel 1 [] false).1, none)
  | some d =>
    if d.isEmpty then ((fetchPages pages fuel 1 [] false).1, some d)
    else
      let r := fetchPages pages fuel 1 d true
      (r.1, some r.2)

theorem dictSet_cons_ne (kv : String × PVal) (d : Dict) (k : String) (v : PVal)
    (h : kv.1 ≠ k) : dictSet (kv :: d) k v = kv :: dictSet d k v := by
  have hb : (kv.1 == k) = false := beq_eq_false_iff_ne.mpr h
  unfold dictSet
  rw [List.any_cons, hb, Bool.false_or]
  by_cases hd : (d.any fun kv => kv.1 == k) = true
  · rw [if_pos hd, if_pos hd, List.map_cons, if_neg (by simp [hb])]
  · rw [if_neg hd, if_neg hd, List.cons_append]

theorem dictSet_cons_eq (kv : String × PVal) (d : Dict) (k : String) (v : PVal)
    (h : kv.1 = k) :
    dictSet (kv :: d) k v =
      (k, v) :: d.map (fun kv => if kv.1 == k then (k, v) else kv) := by
  have hb : (kv.1 == k) = true := beq_iff_eq.mpr h
  unfold dictSet
  rw [List.any_cons, hb, Bool.true_or, if_pos rfl, List.map_cons,
    if_pos (by simp [hb])]

theorem dictGet_dictSet (d : Dict) (k : String) (v : PVal) :
    dictGet (dictSet d k v) k = some v := by
  induction d with
  | nil => simp [dictSet, dictGet]
  | cons kv d ih =>
    by_cases h : kv.1 = k
    · rw [dictSet_cons_eq kv d k v h]
      simp [dictGet]
    · rw [dictSet_cons_ne kv d k v h]
      have hb : (kv.1 == k) = false := beq_eq_false_iff_ne.mpr h
      simpa [dictGet, List.find?_cons, hb] using ih

theorem dictSet_dictSet (d : Dict) (k : String) (v v' : PVal) :
    dictSet (dictSet d k v) k v' = dictSet d k v' := by
  induction d with
  | nil => simp [dictSet]
  | cons kv d ih =>
    by_cases h : kv.1 = k
    · rw [dictSet_cons_eq kv d k v h, dictSet_cons_eq kv d k v' h,
        dictSet_cons_eq ((k, v)) _ k v' rfl]
      congr 1
      rw [List.map_map]
      apply List.map_congr_left
      intro x _
      by_cases hx : x.1 = k
      · have hb : (x.1 == k) = true := beq_iff_eq.mpr hx
        simp [Function.comp, hb]
      · have hb : (x.1 == k) = false := beq_eq_false_iff_ne.mpr hx
        simp [Function.comp, hb]
    · rw [dictSet_cons_ne kv d k v h, dictSet_cons_ne kv _ k v' h,
        dictSet_cons_ne kv d k v' h, ih]

theorem fetchPages_fst {α : Type} (served : Nat → List α) (N : Nat)
    (hstop : served N = []) :
    ∀ (fuel p : Nat) (d : Dict) (sh : Bool), p ≤ N →
      (∀ i, p ≤ i → i < N → served i ≠ []) → N < p + fuel →
      (fetchPages (fun i => .ok (served i)) fuel p d sh).1 =
        .ok (((List.range' p (N - p)).map served).flatten) := by
  intro fuel
  induction fuel with
  | zero => intro p d sh h1 h2 h3; omega
  | succ fuel ih =>
    intro p d sh h1 h2 h3
    by_cases hpN : p = N
    · subst hpN
      simp [fetchPages, hstop]
    · have hplt : p < N := lt_of_le_of_ne h1 hpN
      have hne : served p ≠ [] := h2 p le_rfl hplt
      have hempty : (served p).isEmpty = false := by
        cases hsp : served p with
        | nil => exact absurd hsp hne
        | cons a l => rfl
      have hrec := ih (p + 1) (if sh then dictSet d "page" (.num p) else d) sh
        (by omega) (fun i hi1 hi2 => h2 i (by omega) hi2) (by omega)
      simp only [fetchPages, hempty]
      rcases hR : fetchPages (fun i => .ok (served i)) fuel (p + 1)
          (if sh then dictSet d "page" (.num p) else d) sh with ⟨r1, r2⟩
      rw [hR] at hrec
      simp only at hrec
      subst hrec
      have hrange : N - p = (N - (p + 1)) + 1 := by omega
      rw [hrange, List.range'_succ]
      simp

theorem fetchPages_snd {α : Type} (pages : Nat → Except Unit (List α)) (N : Nat)
    (hstop : pages N = .ok [] ∨ pages N = .error ()) :
    ∀ (fuel p : Nat) (d : Dict), p ≤ N →
      (∀ i, p ≤ i → i < N → ∃ l, pages i = .ok l ∧ l ≠ []) → N < p + fuel →
      (fetchPages pages fuel p d true).2 = dictSet d "page" (.num N) := by
  intro fuel
  induction fuel with
  | zero => intro p d h1 h2 h3; omega
  | succ fuel ih =>
    intro p d h1 h2 h3
    by_cases hpN : p = N
    · subst hpN
      rcases hstop with hstop | hstop <;> simp [fetchPages, hstop]
    · have hplt : p < N := lt_of_le_of_ne h1 hpN
      obtain ⟨l, hl, hlne⟩ := h2 p le_rfl hplt
      have hempty : l.isEmpty = false := by
        cases l with
        | nil => exact absurd rfl hlne
        | cons a t => rfl
      have hrec := ih (p + 1) (dictSet d "page" (.num p))
        (by omega) (fun i hi1 hi2 => h2 i (by omega) hi2) (by omega)
      simp only [fetchPages, hl, hempty, if_true, Bool.false_eq_true, if_false]
      rcases hR : fetchPages pages fuel (p + 1) (dictSet d "page" (.num p)) true
        with ⟨r1, r2⟩
      rw [hR] at hrec
      simp only at hrec
      subst hrec
      cases r1 <;> simp [dictSet_dictSet]

/-- C7: For every sequence of pages served by the remote endpoint with a
first empty page at index `N` (and enough fuel for the Python loop to reach
it), `fetch_all` returns the concatenation, in order, of the item lists of
pages `1, ..., N-1` — exactly the items of all non-empty pages before the
first empty one and nothing else. -/
theorem claim_C7 {α : Type} (served : Nat → List α) (N fuel : Nat)
    (h1 : 1 ≤ N) (hstop : served N = [])
    (hpre : ∀ i, 1 ≤ i → i < N → served i ≠ []) (hfuel : N ≤ fuel) :
    (fetchAll (fun i => .ok (served i)) fuel none).1 =
      .ok (((List.range' 1 (N - 1)).map served).flatten) := by
  simp only [fetchAll]
  exact fetchPages_fst served N hstop fuel 1 [] false h1 hpre (by omega)

/-- Concrete three-page service for the C7 witness: page 1 serves one item,
page 2 serves two, page 3 is empty. -/
def c7pages : Nat → List String :=
  fun i => if i = 1 then ["a"] else if i = 2 then ["b", "c"] else []

/-- C7 witness: the theorem applied to the concrete three-page service. -/
theorem claim_C7_witness :
    (fetchAll (fun i => .ok (c7pages i)) 3 none).1 =
      .ok (((List.range' 1 2).map c7pages).flatten) :=
  claim_C7 c7pages 3 3 (by omega) rfl
    (by intro i hi1 hi2; interval_cases i <;> simp [c7pages]) (by omega)

/-- C10: For every call of `fetch_all` with a non-empty `params` dict, the
caller-owned dict is mutated in place: after the call returns or raises it
holds a `"page"` key equal to the last page number requested (the first
empty or failing page `N`); with `params` equal to `None` or the empty dict
a fresh dict is used instead and the caller's argument is unchanged. -/
theorem claim_C10 {α : Type} (pages : Nat → Except Unit (List α)) (fuel : Nat)
    (d : Dict) (hd : d ≠ []) (N : Nat) (hN : 1 ≤ N)
    (hstop : pages N = .ok [] ∨ pages N = .error ())
    (hpre : ∀ i, 1 ≤ i → i < N → ∃ l, pages i = .ok l ∧ l ≠ [])
    (hfuel : N ≤ fuel) :
    (fetchAll pages fuel (some d)).2 = some (dictSet d "page" (.num N)) ∧
    dictGet (dictSet d "page" (.num N)) "page" = some (.num N) ∧
    (fetchAll pages fuel none).2 = none ∧
    (fetchAll pages fuel (some [])).2 = some [] := by
  refine ⟨?_, dictGet_dictSet d "page" (.num N), rfl, by simp [fetchAll]⟩
  have hne : d.isEmpty = false := by
    cases d with
    | nil => exact absurd rfl hd
    | cons a t => rfl
  simp only [fetchAll, hne]
  simp only [Bool.false_eq_true, if_false]
  exact congrArg some (fetchPages_snd pages N hstop fuel 1 d hN hpre (by omega))

/-- Concrete service for the C10 witness: page 1 serves one item, page 2 is
empty; the caller's dict initially holds only a `"start"` filter. -/
def c10pages : Nat → Except Unit (List String) :=
  fun i => if i = 1 then .ok ["x"] else .ok []

/-- C10 witness: the theorem applied to the concrete two-page service and the
non-empty dict `[("start", "s")]`. -/
theorem claim_C10_witness :
    (fetchAll c10pages 2 (some [("start", .str "s")])).2 =
      some (dictSet [("start", .str "s")] "page" (.num 2)) ∧
    dictGet (dictSet [("start", .str "s")] "page" (.num 2)) "page" =
      some (.num 2) ∧
    (fetchAll c10pages 2 none).2 = none ∧
    (fetchAll c10pages 2 (some [])).2 = some [] :=
  claim_C10 c10pages 2 [("start", .str "s")] (by simp) 2 (by omega)
    (Or.inl rfl)
    (by intro i hi1 hi2
        have hi : i = 1 := by omega
        subst hi
        exact ⟨["x"], rfl, by simp⟩)
    (by omega)

/-! ## Client selection: `main.build_client_name_map` / `main.select_client_id` -/

/-- A client reference record (`{id, name}`), as served by the clients
endpoint; `c['name']` is indexed directly in the source, so it is not
optional. -/
structure Client where
  id : String
  name : String
deriving DecidableEq

/-- Python `str.lower()`, defined over the character list so that proofs can
evaluate it. -/
def lowerB (s : String) : String :=
  ⟨s.data.map Char.toLower⟩

/-- `main.build_client_name_map`: the `defaultdict(list)` mapping each
lowercased client name to the ids of the clients bearing it, in list order.
The dict is embedded as its lookup function; a key is present in the dict
exactly when the returned id list is non-empty (every insertion appends one
id). -/
def buildClientNameMap (clients : List Client) (name : String) : List String :=
  (clients.filter (fun c => lowerB c.name == name)).map (fun c => c.id)

/-- The two failure modes of `select_client_id`: `KeyError` for a name absent
from the map, `ValueError` for an ambiguous name. -/
inductive SelectErr where
  | keyErr (msg : String)
  | valueErr (msg : String)
deriving DecidableEq

/-- `main.select_client_id`: `KeyError` if the choice is not in the map,
`ValueError` if it maps to several ids, otherwise the single id. -/
def selectClientId (nameMap : String → List String) (choice : String) :
    Except SelectErr String :=
  match nameMap choice with
  | [] => .error (.keyErr ("Kein Client mit dem Namen: '" ++ choice ++ "'"))
  | [i] => .ok i
  | _ :: _ :: _ => .error (.valueErr ("Mehrdeutiger Client '" ++ choice ++ "'"))

/-- C4: For every client list, non-interactive client selection over the
lowercase name map fails with `ValueError` whenever the chosen
(case-insensitively compared) name maps to more than one client id — never
silently picking one —, fails with `KeyError` when the name is absent from
the map, and returns the single id of a uniquely mapped name. -/
theorem claim_C4 (clients : List Client) (choice : String) :
    (1 < (buildClientNameMap clients choice).length →
       ∃ m, selectClientId (buildClientNameMap clients) choice =
         .error (.valueErr m)) ∧
    (buildClientNameMap clients choice = [] →
       ∃ m, selectClientId (buildClientNameMap clients) choice =
         .error (.keyErr m)) ∧
    (∀ i, buildClientNameMap clients choice = [i] →
       selectClientId (buildClientNameMap clients) choice = .ok i) := by
  refine ⟨?_, ?_, ?_⟩
  · intro hlen
    rcases hm : buildClientNameMap clients choice with _ | ⟨i, _ | ⟨j, rest⟩⟩
    · rw [hm] at hlen; simp at hlen
    · rw [hm] at hlen; simp at hlen
    · exact ⟨"Mehrdeutiger Client '" ++ choice ++ "'",
        by simp [selectClientId, hm]⟩
  · intro hm
    exact ⟨"Kein Client mit dem Namen: '" ++ choice ++ "'",
      by simp [selectClientId, hm]⟩
  · intro i hm
    simp [selectClientId, hm]

/-- Two clients sharing the (case-insensitive) name "acme" for the C4
witness. -/
def c4clients : List Client := [⟨"c1", "Acme"⟩, ⟨"c2", "ACME"⟩]

/-- C4 witness: the ambiguity arm of the theorem applied to the concrete
client list with a duplicated name. -/
theorem claim_C4_witness :
    1 < (buildClientNameMap c4clients "acme").length ∧
    ∃ m, selectClientId (buildClientNameMap c4clients) "acme" =
      .error (.valueErr m) :=
  ⟨by decide, (claim_C4 c4clients "acme").1 (by decide)⟩

/-! ## Entry Assembler: `main.get_entries_by_date`

The remote JSON payloads are abstracted as structured records; the network
layer (`fetch_all` over the projects/clients/users/time-entries endpoints)
is abstracted by passing the fetched reference lists and a function from
user id to that user's raw time entries. -/

/-- A calendar date. -/
structure YMD where
  year : Nat
  month : Nat
  day : Nat
deriving DecidableEq

/-- A `timeInterval` endpoint as a structured timestamp (the ISO strings of
the payload, already parsed as `pd.to_datetime` does). -/
structure Instant where
  date : YMD
  hour : Nat
  minute : Nat
  second : Nat
deriving DecidableEq

/-- Days since 1970-01-01 of a civil date (standard days-from-civil
algorithm), used to give `Timestamp` subtraction an exact meaning. -/
def daysFromCivil (d : YMD) : Int :=
  let y : Nat := if d.month ≤ 2 then d.year - 1 else d.year
  let era : Nat := y / 400
  let yoe : Nat := y - era * 400
  let doy : Nat :=
    (153 * (if 2 < d.month then d.month - 3 else d.month + 9) + 2) / 5 + d.day - 1
  let doe : Nat := yoe * 365 + yoe / 4 - yoe / 100 + doy
  (era * 146097 + doe : Int) - 719468

/-- An instant as rational hours since the epoch; `end - start` on these
models `(pd.to_datetime(end) - pd.to_datetime(start)).total_seconds()/3600`. -/
def toHoursQ (i : Instant) : ℚ :=
  ((daysFromCivil i.date * 24 : Int) : ℚ) + (i.hour : ℚ)
    + (i.minute : ℚ) / 60 + (i.second : ℚ) / 3600

/-- A raw time entry as flattened by `pd.json_normalize` (absent JSON fields
become `none`/`NaN`). -/
structure RawEntry where
  description : Option String
  projectId : Option String
  taskName : Option String
  intervalStart : Instant
  intervalEnd : Instant
deriving DecidableEq

/-- A workspace user (`user['id']` is indexed directly, `user.get('name','')`
is optional). -/
structure User where
  id : String
  name : Option String
deriving DecidableEq

/-- A project reference record; `project_map.get(pid, {}).get('name', '')`
and `.get('clientId', '')` treat both fields as optional. -/
structure Project where
  id : String
  name : Option String
  clientId : Option String
deriving DecidableEq

/-- An assembled report row. All name/id columns are plain strings by
construction (lookup defaults are `''`), `start` is the entry date rendered
as `strftime('%d.%m.%Y')`, and `duration_hours` is the interval length in
hours. -/
structure TimeEntry where
  description : String
  user_name : String
  client_id : String
  client_name : String
  project_id : String
  project_name : String
  task_name : String
  start : String
  duration_hours : ℚ
deriving DecidableEq

/-- The deterministic column selection (step 7 of `get_entries_by_date`). -/
def timeEntryCols : List String :=
  ["description", "user_name", "client_id", "client_name",
   "project_id", "project_name", "task_name", "start", "duration_hours"]

/-- A pandas DataFrame, reduced to its column list and typed rows. -/
structure DF where
  cols : List String
  rows : List TimeEntry
deriving DecidableEq

/-- `strftime('%d.%m.%Y')`. -/
def formatDateDe (d : YMD) : String :=
  pad2 d.day ++ "." ++ pad2 d.month ++ "." ++ pad4 d.year

/-- `project_map = {p["id"]: p for p in projects}` followed by lookup: a dict
comprehension keeps the last record for a duplicated id, hence the reversed
search. -/
def projectById (projects : List Project) (pid : String) : Option Project :=
  projects.reverse.find? (fun p => p.id == pid)

/-- `client_map = {c["id"]: c["name"] for c in clients}` followed by lookup. -/
def clientNameById (clients : List Client) (cid : String) : Option String :=
  (clients.reverse.find? (fun c => c.id == cid)).map (fun c => c.name)

/-- Steps 3-7 of `get_entries_by_date` for one raw entry of one user:
description defaulted to `''`, project/client resolved through the master
lists, task name defaulted to `'Allgemein'` (also for the empty string),
start date formatted `%d.%m.%Y`, duration in hours from the interval. -/
def mkTimeEntry (projects : List Project) (clients : List Client)
    (u : User) (e : RawEntry) : TimeEntry :=
  let pid := e.projectId.getD ""
  let proj := projectById projects pid
  { description := e.description.getD ""
    user_name := u.name.getD ""
    client_id :=
      match proj with
      | some p => p.clientId.getD ""
      | none => ""
    client_name :=
      (clientNameById clients
        (match proj with
         | some p => p.clientId.getD ""
         | none => "")).getD ""
    project_id := pid
    project_name :=
      match proj with
      | some p => p.name.getD ""
      | none => ""
    task_name :=
      match e.taskName with
      | some t => if t = "" then "Allgemein" else t
      | none => "Allgemein"
    start := formatDateDe e.intervalStart.date
    duration_hours := toHoursQ e.intervalEnd - toHoursQ e.intervalStart }

/-- `main.get_entries_by_date`. With no users it prints a warning and
returns the bare `pd.DataFrame()` (no columns); users without entries
contribute no frame; with no frames at all an empty DataFrame with the nine
`TimeEntry` columns is returned; otherwise the per-user frames (each already
restricted to the nine columns) are concatenated and rows whose client or
project name strips to the empty string are removed. (`dropna` on those two
columns is a no-op: the lookups always produce strings.) -/
def getEntriesByDate (projects : List Project) (clients : List Client)
    (users : List User) (entriesOf : String → List RawEntry) : DF :=
  if users.isEmpty then ⟨[], []⟩
  else
    let frames := users.filterMap (fun u =>
      let entries := entriesOf u.id
      if entries.isEmpty then none
      else some (entries.map (fun e => mkTimeEntry projects clients u e)))
    if frames.isEmpty then ⟨timeEntryCols, []⟩
    else
      ⟨timeEntryCols,
       frames.flatten.filter (fun r =>
         !(trimB r.client_name == "") && !(trimB r.project_name == ""))⟩

/-- C3 counterexample: called with an empty user list (and arbitrary empty
reference data), `get_entries_by_date` returns `pd.DataFrame()`, whose
column set is empty — not the nine `TimeEntry` fields the claim requires
for every invocation. -/
theorem claim_C3_counterexample :
    (getEntriesByDate [] [] [] (fun _ => [])).cols ≠ timeEntryCols := by
  decide

/-- C3 (amended): for every invocation with at least one user — whatever the
reference data and the per-user entries, including users with none — the
returned table's column set is exactly the nine `TimeEntry` fields
`description, user_name, client_id, client_name, project_id, project_name,
task_name, start, duration_hours` in that order. -/
theorem claim_C3 (projects : List Project) (clients : List Client)
    (users : List User) (entriesOf : String → List RawEntry)
    (h : users ≠ []) :
    (getEntriesByDate projects clients users entriesOf).cols = timeEntryCols := by
  have hne : users.isEmpty = false := by
    cases users with
    | nil => exact absurd rfl h
    | cons a t => rfl
  simp only [getEntriesByDate, hne, Bool.false_eq_true, if_false]
  split <;> rfl

/-- C3 witness: the amended theorem applied to a single user with no
entries. -/
theorem claim_C3_witness :
    ([⟨"u1", some "Alice"⟩] : List User) ≠ [] ∧
    (getEntriesByDate [] [] [⟨"u1", some "Alice"⟩] (fun _ => [])).cols =
      timeEntryCols :=
  ⟨by decide, claim_C3 [] [] [⟨"u1", some "Alice"⟩] (fun _ => []) (by decide)⟩

/-! ## Filter Stage: `main.filter_by_client` and the all-projects round trip -/

/-- `main.filter_by_client`: case-insensitive equality on `client_name`. -/
def filterByClient (df : List TimeEntry) (clientName : String) : List TimeEntry :=
  df.filter (fun r => lowerB r.client_name == lowerB clientName)

/-- `sorted(df_client['project_name'].dropna().unique().tolist())` of
`process_reports_loop`: the distinct project names of a table, sorted.
(`dropna` is a no-op on these string columns; `unique` keeps one copy of
each name, and the subsequent sort makes the survivor's position
irrelevant.) -/
def sortedUniqueProjects (df : List TimeEntry) : List String :=
  List.insertionSort (fun a b => a ≤ b) (df.map (fun r => r.project_name)).dedup

/-- The ENTER branch of `filter_by_project_inter`: selecting all projects
returns `projects_in_client.copy()`. -/
def allProjectsSelection (projectsInClient : List String) : List String :=
  projectsInClient

/-- `df_client[df_client['project_name'].isin(selected_projects)]` of
`process_reports_loop`. -/
def filterByProjectIsin (df : List TimeEntry) (sel : List String) : List TimeEntry :=
  df.filter (fun r => sel.contains r.project_name)

/-- C9: For every assembled table and client name, filtering by the client
and then by "all projects" (the full set of project names present in the
client-filtered table) returns exactly the client-filtered table. -/
theorem claim_C9 (df : List TimeEntry) (clientName : String) :
    filterByProjectIsin (filterByClient df clientName)
        (allProjectsSelection (sortedUniqueProjects (filterByClient df clientName)))
      = filterByClient df clientName := by
  apply List.filter_eq_self.mpr
  intro r hr
  have hmem : r.project_name ∈ sortedUniqueProjects (filterByClient df clientName) := by
    unfold sortedUniqueProjects
    rw [List.mem_insertionSort, List.mem_dedup]
    exact List.mem_map_of_mem _ hr
  simpa [allProjectsSelection, List.contains_iff_exists_mem_beq] using hmem

/-! ## Period Labeler: `main.get_months_range_string` -/

/-- `babel.dates.format_date(datetime(year, m, 1), "LLLL", locale='de')`:
the German wide standalone month names (the function is only applied to
month numbers extracted from successfully parsed dates). -/
def monthNameDe (m : Nat) : String :=
  match m with
  | 1 => "Januar"
  | 2 => "Februar"
  | 3 => "März"
  | 4 => "April"
  | 5 => "Mai"
  | 6 => "Juni"
  | 7 => "Juli"
  | 8 => "August"
  | 9 => "September"
  | 10 => "Oktober"
  | 11 => "November"
  | 12 => "Dezember"
  | _ => ""

/-- `pd.to_datetime(-, format="%d.%m.%Y", errors="coerce")` on one cell:
1-2 digit day, literal dot, 1-2 digit month, literal dot, 4-digit year, and
the date must be a valid calendar date; anything else coerces to `NaT`
(`none`). -/
def parseDateDe (s : String) : Option YMD :=
  let cs := s.data
  let p1 := cs.span isDigitB
  if p1.1.length = 0 || 2 < p1.1.length then none
  else
    match p1.2 with
    | '.' :: r2 =>
      let p2 := r2.span isDigitB
      if p2.1.length = 0 || 2 < p2.1.length then none
      else
        match p2.2 with
        | '.' :: r4 =>
          let p3 := r4.span isDigitB
          if p3.1.length = 4 && p3.2.isEmpty then
            if validDate (digitsToNat p3.1) (digitsToNat p2.1) (digitsToNat p1.1)
            then some ⟨digitsToNat p3.1, digitsToNat p2.1, digitsToNat p1.1⟩
            else none
          else none
        | _ => none
    | _ => none

/-- Chronological order on `(year, month)` pairs (the order of pandas
`Period` values). -/
def pairLe (a b : Nat × Nat) : Prop :=
  a.1 < b.1 ∨ (a.1 = b.1 ∧ a.2 ≤ b.2)

instance pairLe.decRel : DecidableRel pairLe := fun a b =>
  decidable_of_iff (a.1 < b.1 ∨ (a.1 = b.1 ∧ a.2 ≤ b.2)) Iff.rfl

instance pairLe.total : IsTotal (Nat × Nat) pairLe :=
  ⟨fun a b => by unfold pairLe; omega⟩

instance pairLe.trans : IsTrans (Nat × Nat) pairLe :=
  ⟨fun a b c hab hbc => by unfold pairLe at hab hbc ⊢; omega⟩

/-- `sorted(series.unique())` on `(year, month)` pairs. -/
def sortDedupPairs (l : List (Nat × Nat)) : List (Nat × Nat) :=
  (List.insertionSort pairLe l).dedup

/-- `sorted(set(...))` on numbers. -/
def sortDedupNat (l : List Nat) : List Nat :=
  (List.insertionSort (fun a b => a ≤ b) l).dedup

/-- Python `sep.join(parts)`. -/
def joinSep (sep : String) : List String → String
  | [] => ""
  | [a] => a
  | a :: rest => a ++ sep ++ joinSep sep rest

/-- The loop body of `split_into_consecutive_blocks`: `blockRev` is the
current block, most recent month first, `last` its most recent month
(`block[-1]`). `m - block[-1] == 1` on integers is exactly `m = last + 1`. -/
def splitGo (last : Nat) (blockRev : List Nat) : List Nat → List (List Nat)
  | [] => [blockRev.reverse]
  | m :: ms =>
    if m = last + 1 then splitGo m (m :: blockRev) ms
    else blockRev.reverse :: splitGo m [m] ms

/-- `split_into_consecutive_blocks(months)` of `get_months_range_string`. -/
def splitIntoConsecutiveBlocks : List Nat → List (List Nat)
  | [] => []
  | m :: ms => splitGo m [m] ms

/-- One block rendered as `"Month1/Month2/.../MonthN Year"` (single months as
`"Month Year"`). -/
def renderBlock (y : Nat) (block : List Nat) : String :=
  let monthNames := block.map monthNameDe
  if 1 < block.length then joinSep "/" monthNames ++ " " ++ toString y
  else monthNames.headD "" ++ " " ++ toString y

/-- `main.get_months_range_string`, over the `start` column of the frame
(the only column the function reads). Dates failing `%d.%m.%Y` parsing are
coerced to `NaT` and dropped; the distinct `(year, month)` pairs are sorted,
grouped by year (ascending, months of each year ascending and distinct, as
`sorted(year_to_months.keys())` / `sorted(set(months))` produce), split into
maximal consecutive runs and rendered with German month names; everything is
joined with `", "`. -/
def getMonthsRangeString (starts : List String) : String :=
  if starts.isEmpty then ""
  else
    let parsed := starts.filterMap parseDateDe
    if parsed.isEmpty then ""
    else
      let pairs := sortDedupPairs (parsed.map (fun d => (d.year, d.month)))
      let years := sortDedupNat (pairs.map (fun p => p.1))
      joinSep ", " (years.map (fun y =>
        let ms := sortDedupNat ((pairs.filter (fun p => p.1 == y)).map (fun p => p.2))
        joinSep ", " ((splitIntoConsecutiveBlocks ms).map (renderBlock y))))

theorem splitGo_flatten : ∀ (ms : List Nat) (last : Nat) (bR : List Nat),
    (splitGo last bR ms).flatten = bR.reverse ++ ms := by
  intro ms
  induction ms with
  | nil => intro last bR; simp [splitGo]
  | cons m ms ih =>
    intro last bR
    by_cases h : m = last + 1
    · simp [splitGo, h, ih]
    · simp [splitGo, h, ih]

theorem splitGo_first : ∀ (ms : List Nat) (last : Nat) (bR : List Nat),
    ∃ ext rest, splitGo last bR ms = (bR.reverse ++ ext) :: rest := by
  intro ms
  induction ms with
  | nil => intro last bR; exact ⟨[], [], by simp [splitGo]⟩
  | cons m ms ih =>
    intro last bR
    by_cases h : m = last + 1
    · obtain ⟨ext, rest, hE⟩ := ih m (m :: bR)
      subst h
      exact ⟨[last + 1] ++ ext, rest, by simp [splitGo, hE, List.append_assoc]⟩
    · exact ⟨[], splitGo m [m] ms, by simp [splitGo, h]⟩

theorem splitGo_runs : ∀ (ms : List Nat) (last : Nat) (bR : List Nat),
    bR ≠ [] → bR.head? = some last →
    List.Chain' (fun a b => a = b + 1) bR →
    ∀ b ∈ splitGo last bR ms, b ≠ [] ∧ List.Chain' (fun a b => b = a + 1) b := by
  intro ms
  induction ms with
  | nil =>
    intro last bR hne _ hch b hb
    simp only [splitGo, List.mem_singleton] at hb
    subst hb
    refine ⟨by simpa using hne, ?_⟩
    exact List.chain'_reverse.mpr hch
  | cons m ms ih =>
    intro last bR hne hhead hch b hb
    by_cases h : m = last + 1
    · rw [splitGo, if_pos h] at hb
      refine ih m (m :: bR) (by simp) rfl ?_ b hb
      rcases bR with _ | ⟨b0, bR'⟩
      · exact absurd rfl hne
      · have hb0 : b0 = last := by simpa using hhead
        subst hb0
        exact List.chain'_cons.mpr ⟨h, hch⟩
    · rw [splitGo, if_neg h] at hb
      rcases List.mem_cons.mp hb with hb | hb
      · subst hb
        refine ⟨by simpa using hne, ?_⟩
        exact List.chain'_reverse.mpr hch
      · exact ih m [m] (by simp) rfl (List.chain'_singleton m) b hb

theorem splitGo_gaps : ∀ (ms : List Nat) (last : Nat) (bR : List Nat),
    bR.head? = some last → List.Chain' (· < ·) (last :: ms) →
    List.Chain' (fun b c => ∀ x ∈ b.getLast?, ∀ y ∈ c.head?, x + 1 < y)
      (splitGo last bR ms) := by
  intro ms
  induction ms with
  | nil => intro last bR _ _; simp [splitGo]
  | cons m ms ih =>
    intro last bR hhead hch
    obtain ⟨hlm, hch'⟩ := List.chain'_cons.mp hch
    by_cases h : m = last + 1
    · rw [splitGo, if_pos h]
      exact ih m (m :: bR) rfl hch'
    · rw [splitGo, if_neg h]
      refine List.chain'_cons'.mpr ⟨?_, ih m [m] rfl hch'⟩
      intro c hc x hx y hy
      obtain ⟨ext, rest, hE⟩ := splitGo_first ms m [m]
      rw [hE] at hc
      simp only [List.head?_cons, Option.mem_def, Option.some.injEq] at hc
      subst hc
      simp only [List.getLast?_reverse, hhead, Option.mem_def,
        Option.some.injEq] at hx
      subst hx
      have hym : m = y := by simpa using hy
      omega

/-- C8: the Period Labeler groups the distinct months correctly — for every
strictly ascending month list (as produced by `sorted(set(months))`), the
consecutive blocks concatenate back to the input, every block is a non-empty
run of consecutive months, and adjacent blocks are separated by a gap of at
least one month (each block is maximal); in particular dates in January,
February and April 2025 render as `"Januar/Februar 2025, April 2025"` —
April is not merged into the first run. -/
theorem claim_C8 :
    (∀ ms : List Nat, List.Chain' (· < ·) ms →
       (splitIntoConsecutiveBlocks ms).flatten = ms ∧
       (∀ b ∈ splitIntoConsecutiveBlocks ms,
          b ≠ [] ∧ List.Chain' (fun a b => b = a + 1) b) ∧
       List.Chain' (fun b c => ∀ x ∈ b.getLast?, ∀ y ∈ c.head?, x + 1 < y)
         (splitIntoConsecutiveBlocks ms)) ∧
    getMonthsRangeString ["15.01.2025", "03.02.2025", "07.04.2025"] =
      "Januar/Februar 2025, April 2025" := by
  constructor
  · intro ms hch
    rcases ms with _ | ⟨m, ms⟩
    · exact ⟨rfl, by simp [splitIntoConsecutiveBlocks], by simp [splitIntoConsecutiveBlocks]⟩
    · refine ⟨?_, ?_, ?_⟩
      · simpa using splitGo_flatten ms m [m]
      · exact splitGo_runs ms m [m] (by simp) rfl (List.chain'_singleton m)
      · exact splitGo_gaps ms m [m] rfl hch
  · decide

/-- C8 witness: the grouping part of the theorem applied to the concrete
month list `[1, 2, 4]` (January, February, April). -/
theorem claim_C8_witness :
    List.Chain' (· < ·) [1, 2, 4] ∧
    ((splitIntoConsecutiveBlocks [1, 2, 4]).flatten = [1, 2, 4] ∧
     (∀ b ∈ splitIntoConsecutiveBlocks [1, 2, 4],
        b ≠ [] ∧ List.Chain' (fun a b => b = a + 1) b) ∧
     List.Chain' (fun b c => ∀ x ∈ b.getLast?, ∀ y ∈ c.head?, x + 1 < y)
       (splitIntoConsecutiveBlocks [1, 2, 4])) :=
  ⟨List.chain'_cons.mpr ⟨by omega,
     List.chain'_cons.mpr ⟨by omega, List.chain'_singleton 4⟩⟩,
   claim_C8.1 [1, 2, 4]
     (List.chain'_cons.mpr ⟨by omega,
        List.chain'_cons.mpr ⟨by omega, List.chain'_singleton 4⟩⟩)⟩

/-! ## Filename Builder: `main.build_pdf_filename`

`build_pdf_filename(client_name, selected_projects, first_date, last_date,
selected_all_projects=False, table_for_pdf=None)` derives its month
segments either from the distinct months present in the passed table
(`table_for_pdf` path, used by the web app) or — fallback used by
`process_reports_loop`, which passes no table — from every month of the
`first_date..last_date` span. -/

/-- A row of the editable web table (the `required_cols` of
`streamlit_app.py`: description, task_name, start, duration_hours). -/
structure EditRow where
  description : String
  task_name : String
  start : String
  duration_hours : ℚ
deriving DecidableEq

/-- `pd.to_datetime(table["start"], dayfirst=True, errors="coerce")` followed
by `.dt.to_period("M")`: the `(year, month)` pairs of the parseable dates of
the table (the pipeline only ever stores `%d.%m.%Y` strings in `start`). -/
def parsedPairs (rows : List EditRow) : List (Nat × Nat) :=
  (rows.filterMap (fun r => parseDateDe r.start)).map (fun d => (d.year, d.month))

/-- Step to the next month, as the `current.replace(...)` arithmetic of the
fallback loop. -/
def monthSucc (p : Nat × Nat) : Nat × Nat :=
  if p.2 = 12 then (p.1 + 1, 1) else (p.1, p.2 + 1)

/-- `n` consecutive months starting at `p`. -/
def monthRange (p : Nat × Nat) : Nat → List (Nat × Nat)
  | 0 => []
  | n + 1 => p :: monthRange (monthSucc p) n

/-- The fallback month enumeration of `build_pdf_filename`: starting at
`first_date.replace(day=1)` and while `current <= last_date`, collect the
month and step (a day-1 timestamp is `<= last_date` exactly when its
`(year, month)` does not exceed `last_date`'s, since valid days are `>= 1`);
the number of iterations is the month distance plus one. -/
def spanPeriods (first last : YMD) : List (Nat × Nat) :=
  if first.year * 12 + first.month ≤ last.year * 12 + last.month then
    monthRange (first.year, first.month)
      (last.year * 12 + last.month - (first.year * 12 + first.month) + 1)
  else []

/-- The `periods` list of `build_pdf_filename`: distinct sorted months of the
table when one is passed, the full span otherwise. -/
def filenamePeriods (first last : YMD) (table : Option (List EditRow)) :
    List (Nat × Nat) :=
  match table with
  | some rows => sortDedupPairs (parsedPairs rows)
  | none => spanPeriods first last

/-- `.replace('/', '_').replace(' ', '_')` on a name segment. -/
def cleanSeg (s : String) : String :=
  ⟨s.data.map (fun c => if c = '/' then '_' else if c = ' ' then '_' else c)⟩

/-- `p.strip().lower() in ("alle projekte", "alle")`. -/
def isAllToken (p : String) : Bool :=
  lowerB (trimB p) == "alle projekte" || lowerB (trimB p) == "alle"

/-- Python dict key order (`years` grouping): first occurrence of each year. -/
def dedupKeepFirst (l : List Nat) : List Nat :=
  l.foldl (fun acc x => if acc.contains x then acc else acc ++ [x]) []

/-- `main.build_pdf_filename`. The special client `"Kleinere Projekte"` omits
the client segment and always keeps the project segment (the re-derivation
of the project list from `table_for_pdf["project_name"]` is skipped: the
table passed by the callers carries no `project_name` column); otherwise the
project segment is dropped when all projects are selected, and the client
segment is included when the client name is non-empty. The month/year part
groups the period list by year in order of first occurrence. -/
def buildPdfFilename (clientName : String) (selectedProjects : List String)
    (first last : YMD) (selectedAllProjects : Bool)
    (table : Option (List EditRow)) : String :=
  let allish := selectedProjects.isEmpty
      || selectedProjects.all isAllToken || selectedAllProjects
  let parts :=
    if clientName == "Kleinere Projekte" then
      let projectPart :=
        if selectedProjects.length = 1 then cleanSeg (selectedProjects.headD "")
        else joinSep "_" (selectedProjects.map cleanSeg)
      ["Stundenauflistung", projectPart]
    else
      let projectPart :=
        if allish then ""
        else if selectedProjects.length = 1 then cleanSeg (selectedProjects.headD "")
        else joinSep "_" (selectedProjects.map cleanSeg)
      ["Stundenauflistung"]
        ++ (if clientName == "" then [] else [cleanSeg (trimB clientName)])
        ++ (if projectPart == "" then [] else [projectPart])
  let periods := filenamePeriods first last table
  let yearKeys := dedupKeepFirst (periods.map (fun p => p.1))
  let yearMonths := yearKeys.map (fun y =>
    (y, (periods.filter (fun p => p.1 == y)).map (fun p => p.2)))
  let periodPart :=
    match yearMonths with
    | [(y, ms)] => joinSep "_" (ms.map pad2) ++ "_" ++ toString y
    | _ => joinSep "--" (yearMonths.map
        (fun p => joinSep "_" (p.2.map pad2) ++ "_" ++ toString p.1))
  joinSep "_" (parts ++ [periodPart]) ++ ".pdf"

/-- Chronological key of a date (months have at most 31 days). -/
def dateKey (d : YMD) : Nat :=
  (d.year * 12 + d.month) * 32 + d.day

/-- `pd.to_datetime(...).min()` over parsed dates. -/
def minDateOf (dates : List YMD) : YMD :=
  match dates with
  | [] => ⟨0, 0, 0⟩
  | d :: ds => ds.foldl (fun a b => if dateKey b < dateKey a then b else a) d

/-- `pd.to_datetime(...).max()` over parsed dates. -/
def maxDateOf (dates : List YMD) : YMD :=
  match dates with
  | [] => ⟨0, 0, 0⟩
  | d :: ds => ds.foldl (fun a b => if dateKey a < dateKey b then b else a) d

/-- Lines 989-995 of `main.process_reports_loop`: first/last date from the
filtered rows, the client cleaned to `""` for "kleinere projekte", and
`build_pdf_filename` called WITHOUT `table_for_pdf` — the fallback span
path. -/
def processReportsFilename (dfProj : List TimeEntry)
    (selectedProjects : List String) : String :=
  let dates := dfProj.filterMap (fun r => parseDateDe r.start)
  let clientName := (dfProj.headD ⟨"", "", "", "", "", "", "", "", 0⟩).client_name
  let cleanClient :=
    if lowerB (trimB clientName) == "kleinere projekte" then "" else clientName
  buildPdfFilename cleanClient selectedProjects (minDateOf dates)
    (maxDateOf dates) false none

theorem monthRange_mem : ∀ (n : Nat) (p q : Nat × Nat),
    1 ≤ p.2 → p.2 ≤ 12 → 1 ≤ q.2 → q.2 ≤ 12 →
    p.1 * 12 + p.2 ≤ q.1 * 12 + q.2 →
    q.1 * 12 + q.2 < p.1 * 12 + p.2 + n →
    q ∈ monthRange p n := by
  intro n
  induction n with
  | zero => intro p q h1 h2 h3 h4 h5 h6; omega
  | succ n ih =>
    intro p q h1 h2 h3 h4 h5 h6
    rcases Nat.eq_or_lt_of_le h5 with he | hlt
    · have h7 : p.1 = q.1 ∧ p.2 = q.2 := by omega
      have hpq : p = q := Prod.ext h7.1 h7.2
      subst hpq
      simp [monthRange]
    · simp only [monthRange]
      apply List.mem_cons_of_mem
      by_cases hm12 : p.2 = 12
      · have hsucc : monthSucc p = (p.1 + 1, 1) := by simp [monthSucc, hm12]
        rw [hsucc]
        exact ih (p.1 + 1, 1) q (by omega) (by omega) h3 h4
          (by simp only; omega) (by simp only; omega)
      · have hsucc : monthSucc p = (p.1, p.2 + 1) := by simp [monthSucc, hm12]
        rw [hsucc]
        exact ih (p.1, p.2 + 1) q (by simp only; omega) (by simp only; omega)
          h3 h4 (by simp only; omega) (by simp only; omega)

theorem mem_sortDedupPairs (l : List (Nat × Nat)) (p : Nat × Nat) :
    p ∈ sortDedupPairs l ↔ p ∈ l := by
  simp [sortDedupPairs, List.mem_dedup, List.mem_insertionSort]

theorem sortDedupPairs_sorted (l : List (Nat × Nat)) :
    List.Sorted pairLe (sortDedupPairs l) :=
  List.Pairwise.sublist (List.dedup_sublist _) (List.sorted_insertionSort pairLe l)

/-- Example rows of the C2 counterexample: two entries for client Acme,
project Website, dated 05.01.2025 and 10.03.2025 — no entry in February. -/
def c2rowA : TimeEntry :=
  ⟨"Arbeit A", "Alice", "c1", "Acme", "p1", "Website", "Allgemein",
   "05.01.2025", 2⟩

def c2rowB : TimeEntry :=
  ⟨"Arbeit B", "Alice", "c1", "Acme", "p1", "Website", "Allgemein",
   "10.03.2025", 3⟩

/-- C2 counterexample: in the CLI pipeline (`process_reports_loop` calls
`build_pdf_filename` without `table_for_pdf`), rows dated January and March
2025 produce the filename
`Stundenauflistung_Acme_Website_01_02_03_2025.pdf` — the gap month February
appears among the month segments although the distinct `(year, month)`
pairs of the rendered rows are only January and March. -/
theorem claim_C2_counterexample :
    processReportsFilename [c2rowA, c2rowB] ["Website"] =
      "Stundenauflistung_Acme_Website_01_02_03_2025.pdf" ∧
    ([c2rowA, c2rowB].filterMap (fun r => parseDateDe r.start)).map
        (fun d => (d.year, d.month)) = [(2025, 1), (2025, 3)] ∧
    (2025, 2) ∉ ([c2rowA, c2rowB].filterMap (fun r => parseDateDe r.start)).map
        (fun d => (d.year, d.month)) ∧
    (2025, 2) ∈ filenamePeriods ⟨2025, 1, 5⟩ ⟨2025, 3, 10⟩ none := by
  refine ⟨?_, ?_, ?_, ?_⟩ <;> decide

/-- C2 (amended): when a table is passed to `build_pdf_filename` (as the web
app does), the month segments are exactly the distinct `(year, month)` pairs
present in that table's rendered rows, in ascending order and without
duplicates — a gap month cannot appear; but in the fallback used by
`process_reports_loop` (no table), the segments are every month of the
`first..last` span, so any in-span month appears whether or not rows exist
for it. -/
theorem claim_C2 :
    (∀ (first last : YMD) (rows : List EditRow),
       filenamePeriods first last (some rows) = sortDedupPairs (parsedPairs rows) ∧
       List.Sorted pairLe (filenamePeriods first last (some rows)) ∧
       (filenamePeriods first last (some rows)).Nodup ∧
       (∀ p, p ∈ filenamePeriods first last (some rows) ↔ p ∈ parsedPairs rows)) ∧
    (∀ (first last : YMD) (y m : Nat),
       1 ≤ first.month → first.month ≤ 12 → 1 ≤ m → m ≤ 12 →
       first.year * 12 + first.month ≤ y * 12 + m →
       y * 12 + m ≤ last.year * 12 + last.month →
       (y, m) ∈ filenamePeriods first last none) := by
  constructor
  · intro first last rows
    refine ⟨rfl, sortDedupPairs_sorted _, List.nodup_dedup _, ?_⟩
    intro p
    exact mem_sortDedupPairs _ p
  · intro first last y m h1 h2 h3 h4 h5 h6
    show (y, m) ∈ spanPeriods first last
    unfold spanPeriods
    rw [if_pos (by omega)]
    exact monthRange_mem _ (first.year, first.month) (y, m) h1 h2 h3 h4
      (by simp only; omega) (by simp only; omega)

/-- C2 witness: the fallback arm of the amended theorem applied at the
concrete span January-March 2025 and the gap month February. -/
theorem claim_C2_witness :
    (2025 * 12 + 1 ≤ 2025 * 12 + 2 ∧ 2025 * 12 + 2 ≤ 2025 * 12 + 3) ∧
    (2025, 2) ∈ filenamePeriods ⟨2025, 1, 5⟩ ⟨2025, 3, 10⟩ none :=
  ⟨⟨by omega, by omega⟩,
   claim_C2.2 ⟨2025, 1, 5⟩ ⟨2025, 3, 10⟩ 2025 2 (by decide) (by decide)
     (by decide) (by decide) (by decide) (by decide)⟩

/-! ## Report Renderer totals: `main.generate_report_pdf`,
`streamlit_app.py` manual row / total computation -/

/-- The manually appended extra row of the web app (free-text description,
no date/task, duration in hours). -/
structure ManualRow where
  description : String
  duration_hours : ℚ
deriving DecidableEq

/-- Line 417 of `streamlit_app.py`: the manual row is stored only when the
description is non-empty (truthy) and the hours are positive. -/
def manualRowOf (desc : String) (hours : ℚ) : Option ManualRow :=
  if desc ≠ "" ∧ 0 < hours then some ⟨desc, hours⟩ else none

/-- `table["duration_hours"].sum()`. -/
def sumDurations (rows : List EditRow) : ℚ :=
  (rows.map (fun r => r.duration_hours)).sum

/-- `f"{x:.2f}".replace('.', ',')`: two decimals with a comma separator.
(Python rounds the binary float half-to-even; rounding the exact rational to
the nearest cent stands in for that here.) -/
def fmt2de (q : ℚ) : String :=
  let c : Int := round (q * 100)
  let sign := if c < 0 then "-" else ""
  let a := c.natAbs
  sign ++ toString (a / 100) ++ "," ++ pad2 (a % 100)

/-- Lines 975-982 of `process_reports_loop`: description/task cells are
stripped and empty cells replaced by `'Allgemein'`. -/
def cleanCell (s : String) : String :=
  let t := trimB s
  if t == "" then "Allgemein" else t

/-- Chronological key of a rendered row, from its `%d.%m.%Y` start string. -/
def dateKeyOfStart (r : TimeEntry) : Nat :=
  dateKey ((parseDateDe r.start).getD ⟨0, 0, 0⟩)

/-- Line 972 of `process_reports_loop`:
`sort_values(by='start', key=pd.to_datetime(dayfirst=True))` — a stable
ascending sort of the rows by parsed date. -/
def sortByDate (df : List TimeEntry) : List TimeEntry :=
  List.insertionSort (fun a b => dateKeyOfStart a ≤ dateKeyOfStart b) df

/-- `table_data` of `main.generate_report_pdf`: header row, the passed body
rows, and the totals row `['Gesamtaufwand:', '', '', f"{total:.2f}" + " h"]`. -/
def pdfTableData (rows : List (List String)) (totalHours : ℚ) :
    List (List String) :=
  ["Beschreibung", "Aufgabe", "Datum", "Dauer"] :: rows
    ++ [["Gesamtaufwand:", "", "", fmt2de totalHours ++ " h"]]

/-- Line 969 of `process_reports_loop`: `df_proj['duration_hours'].sum()`,
where `df_proj` is the client table filtered by the selected projects —
the value rendered into the totals footer. -/
def cliTotalHours (dfClient : List TimeEntry) (sel : List String) : ℚ :=
  ((filterByProjectIsin dfClient sel).map (fun r => r.duration_hours)).sum

/-- The rows rendered into the CLI report body (lines 972 and 984-987):
exactly the project-filtered rows, sorted by date. -/
def cliRenderedRows (dfClient : List TimeEntry) (sel : List String) :
    List TimeEntry :=
  sortByDate (filterByProjectIsin dfClient sel)

/-- The full CLI report table for a client table and project selection
(`process_reports_loop` lines 984-1005 feeding `generate_report_pdf`). -/
def cliReportTable (dfClient : List TimeEntry) (sel : List String) :
    List (List String) :=
  pdfTableData
    ((cliRenderedRows dfClient sel).map
      (fun r => [cleanCell r.description, cleanCell r.task_name, r.start,
                 fmt2de r.duration_hours]))
    (cliTotalHours dfClient sel)

/-- Modelled from the spec: the `generate_report_pdf_bytes` variant that
`streamlit_app.py` calls with `manual_row=...` is not under src/ (the
function in src/main.py lacks that parameter; only its caller is present).
Per the spec the renderer "accepts an optional single manually-appended row
(no date/task, free-text description, positive duration) injected after the
fetched rows and included in the total". -/
def generateReportPdfBytesModel (rows : List (List String)) (totalHours : ℚ)
    (manual : Option ManualRow) : List (List String) :=
  let bodyRows := rows ++ (match manual with
    | some m => [[m.description, "", "", fmt2de m.duration_hours]]
    | none => [])
  let total := totalHours + (match manual with
    | some m => m.duration_hours
    | none => 0)
  ["Beschreibung", "Aufgabe", "Datum", "Dauer"] :: bodyRows
    ++ [["Gesamtaufwand:", "", "", fmt2de total ++ " h"]]

/-- The totals value of the modelled bytes renderer. -/
def pdfBytesTotal (totalHours : ℚ) (manual : Option ManualRow) : ℚ :=
  totalHours + (match manual with
    | some m => m.duration_hours
    | none => 0)

/-- The value shown in the web report's totals footer: the caller passes
`total_hours = table_for_pdf["duration_hours"].sum()` (line 465 of
`streamlit_app.py`), the renderer adds the manual row's duration. -/
def streamlitFooterTotal (table : List EditRow) (manual : Option ManualRow) : ℚ :=
  pdfBytesTotal (sumDurations table) manual

/-- The durations of all rendered body rows of the web report: the edited
table's rows followed by the manual row when present. -/
def renderedDurations (table : List EditRow) (manual : Option ManualRow) :
    List ℚ :=
  table.map (fun r => r.duration_hours)
    ++ (match manual with
        | some m => [m.duration_hours]
        | none => [])

/-- C1: For every rendered report the totals footer equals the exact sum of
the rendered rows' durations including any manually appended row — with a
valid manual row (non-empty description, positive duration) the web footer
equals the table sum plus the manual duration and is strictly larger than
the table sum alone; without a manual row it is the table sum; and the CLI
footer equals the sum of the post-filter rendered (date-sorted) rows, whose
formatted value is the last cell of the generated table — never a pre-filter
total. -/
theorem claim_C1 (table : List EditRow) (desc : String) (hours : ℚ)
    (dfClient : List TimeEntry) (sel : List String)
    (hv : 0 < hours) (hd : desc ≠ "") :
    (streamlitFooterTotal table (manualRowOf desc hours) =
       (renderedDurations table (manualRowOf desc hours)).sum ∧
     streamlitFooterTotal table (manualRowOf desc hours) =
       sumDurations table + hours ∧
     sumDurations table < streamlitFooterTotal table (manualRowOf desc hours)) ∧
    streamlitFooterTotal table none = (renderedDurations table none).sum ∧
    (cliTotalHours dfClient sel =
       ((cliRenderedRows dfClient sel).map (fun r => r.duration_hours)).sum ∧
     (cliReportTable dfClient sel).getLast? =
       some ["Gesamtaufwand:", "", "",
             fmt2de (cliTotalHours dfClient sel) ++ " h"]) := by
  have hm : manualRowOf desc hours = some ⟨desc, hours⟩ := by
    unfold manualRowOf
    rw [if_pos ⟨hd, hv⟩]
  refine ⟨⟨?_, ?_, ?_⟩, ?_, ?_, ?_⟩
  · rw [hm]
    unfold streamlitFooterTotal pdfBytesTotal renderedDurations sumDurations
    simp
  · rw [hm]
    rfl
  · rw [hm]
    exact lt_add_of_pos_right _ hv
  · unfold streamlitFooterTotal pdfBytesTotal renderedDurations
    simp [sumDurations]
  · unfold cliTotalHours cliRenderedRows sortByDate
    have hperm := List.perm_insertionSort
      (fun a b => dateKeyOfStart a ≤ dateKeyOfStart b)
      (filterByProjectIsin dfClient sel)
    exact ((hperm.map (fun r => r.duration_hours)).sum_eq).symm
  · unfold cliReportTable pdfTableData
    exact List.getLast?_concat _

/-- One fetched row for the C1 witness. -/
def c1table : List EditRow := [⟨"row1", "Allgemein", "05.01.2025", 2⟩]

/-- One assembled row for the CLI part of the C1 witness. -/
def c1dfRow : TimeEntry :=
  ⟨"Arbeit", "Alice", "c1", "Acme", "p1", "Website", "Allgemein",
   "05.01.2025", 2⟩

/-- C1 witness: the theorem applied to a one-row table with a manual row of
one hour, and a one-row CLI table. -/
theorem claim_C1_witness :
    (0 : ℚ) < 1 ∧ ("extra" : String) ≠ "" ∧
    ((streamlitFooterTotal c1table (manualRowOf "extra" 1) =
        (renderedDurations c1table (manualRowOf "extra" 1)).sum ∧
      streamlitFooterTotal c1table (manualRowOf "extra" 1) =
        sumDurations c1table + 1 ∧
      sumDurations c1table < streamlitFooterTotal c1table (manualRowOf "extra" 1)) ∧
     streamlitFooterTotal c1table none = (renderedDurations c1table none).sum ∧
     (cliTotalHours [c1dfRow] ["Website"] =
        ((cliRenderedRows [c1dfRow] ["Website"]).map
          (fun r => r.duration_hours)).sum ∧
      (cliReportTable [c1dfRow] ["Website"]).getLast? =
        some ["Gesamtaufwand:", "", "",
              fmt2de (cliTotalHours [c1dfRow] ["Website"]) ++ " h"])) :=
  ⟨by decide, by decide,
   claim_C1 c1table "extra" 1 [c1dfRow] ["Website"] (by decide) (by decide)⟩

end Clockify
